import Mathlib

/-!
# Verification of the GitHub Autopilot event-intake core

Shallow embedding of the webhook-driven automation bot
(`src/server.py`, `src/app/auth.py`, `src/app/handlers.py`) and proofs
of the specification claims about it.

Conventions:
* Python byte strings are `List Nat` (each entry < 256), text strings are
  Lean `String` / `List Char`.
* Python floats used for wall-clock time are modelled as `ℚ`.
* Fallible code returns `Option` / `Except`.
* Machine words in SHA-256 are `Nat` reduced `% 2 ^ 32` where overflow matters.
-/

set_option maxRecDepth 200000

namespace Autopilot

/-! ## JSON values (the image of Python `json.loads`)

`json.loads` produces dicts, lists, strings, numbers (`int`/`float`), booleans
and `None`.  Numbers are modelled exactly as rationals (the decimal literals in
play are all exactly representable; non-finite literals such as `NaN` /
`Infinity` do not occur in any input considered here and are out of scope). -/

inductive Json where
  | null : Json
  | bool (b : Bool) : Json
  | num (q : ℚ) : Json
  | str (s : String) : Json
  | arr (elems : List Json) : Json
  | obj (fields : List (String × Json)) : Json
deriving Repr

mutual

/-- Structural (boolean) equality on `Json`. -/
def Json.beq : Json → Json → Bool
  | .null, .null => true
  | .bool a, .bool b => a == b
  | .num a, .num b => a == b
  | .str a, .str b => a == b
  | .arr a, .arr b => Json.beqList a b
  | .obj a, .obj b => Json.beqFields a b
  | _, _ => false

def Json.beqList : List Json → List Json → Bool
  | [], [] => true
  | a :: as, b :: bs => Json.beq a b && Json.beqList as bs
  | _, _ => false

def Json.beqFields : List (String × Json) → List (String × Json) → Bool
  | [], [] => true
  | (k, a) :: as, (l, b) :: bs => k == l && Json.beq a b && Json.beqFields as bs
  | _, _ => false

end

/-- Python truthiness of a JSON value: `None`, `False`, numeric zero, the empty
string, the empty list and the empty dict are falsy; everything else is truthy. -/
def pyTruthy : Json → Bool
  | .null => false
  | .bool b => b
  | .num q => !(q == 0)
  | .str s => !(s == "")
  | .arr elems => !elems.isEmpty
  | .obj fields => !fields.isEmpty

/-- Model of `d.get(key)` on a dict produced by `json.loads`: the value of the last
binding of `key` (CPython keeps the last value on duplicate keys), `none` when
the key is absent. -/
def jget (j : Json) (key : String) : Option Json :=
  match j with
  | .obj fields => (fields.reverse.find? (fun p => p.1 == key)).map (fun p => p.2)
  | _ => none

/-- Model of `d.get(key, default)`. -/
def jgetD (j : Json) (key : String) (dflt : Json) : Json :=
  (jget j key).getD dflt

/-- Model of `bool(d.get(key))`: truthiness of an optional lookup (`None` when absent). -/
def jTruthyAt (j : Json) (key : String) : Bool :=
  match jget j key with
  | some v => pyTruthy v
  | none => false

/-! ## A model of Python `json.loads` (strict mode)

Recursive-descent parser over `List Char` with explicit fuel (nesting depth is
bounded by the input length, so `length + 1` fuel never runs dry). -/

/-- JSON whitespace accepted between tokens. -/
def isJsonWs (c : Char) : Bool :=
  c == ' ' || c == '\t' || c == '\n' || c == '\r'

def skipWs (l : List Char) : List Char := l.dropWhile isJsonWs

def isDigitCh (c : Char) : Bool := 48 ≤ c.toNat && c.toNat ≤ 57

def digitsToNat (l : List Char) : Nat :=
  l.foldl (fun acc c => acc * 10 + (c.toNat - 48)) 0

/-- Hexadecimal digit value, for `\uXXXX` escapes. -/
def hexVal (c : Char) : Option Nat :=
  if 48 ≤ c.toNat && c.toNat ≤ 57 then some (c.toNat - 48)
  else if 97 ≤ c.toNat && c.toNat ≤ 102 then some (c.toNat - 87)
  else if 65 ≤ c.toNat && c.toNat ≤ 70 then some (c.toNat - 55)
  else none

/-- Body of a JSON string after the opening quote: returns the decoded
characters and the input remaining after the closing quote.  Strict mode:
unescaped control characters (code < 32) are rejected; only the eight standard
escapes and `\uXXXX` are accepted. -/
def parseStringBody : List Char → Option (List Char × List Char)
  | [] => none
  | '"' :: rest => some ([], rest)
  | '\\' :: e :: rest =>
    match e with
    | '"' => (parseStringBody rest).map (fun p => ('"' :: p.1, p.2))
    | '\\' => (parseStringBody rest).map (fun p => ('\\' :: p.1, p.2))
    | '/' => (parseStringBody rest).map (fun p => ('/' :: p.1, p.2))
    | 'b' => (parseStringBody rest).map (fun p => (Char.ofNat 8 :: p.1, p.2))
    | 'f' => (parseStringBody rest).map (fun p => (Char.ofNat 12 :: p.1, p.2))
    | 'n' => (parseStringBody rest).map (fun p => ('\n' :: p.1, p.2))
    | 'r' => (parseStringBody rest).map (fun p => (Char.ofNat 13 :: p.1, p.2))
    | 't' => (parseStringBody rest).map (fun p => ('\t' :: p.1, p.2))
    | 'u' =>
      match rest with
      | a :: b :: c :: d :: rest2 =>
        match hexVal a, hexVal b, hexVal c, hexVal d with
        | some ha, some hb, some hc, some hd =>
          (parseStringBody rest2).map
            (fun p => (Char.ofNat (((ha * 16 + hb) * 16 + hc) * 16 + hd) :: p.1, p.2))
        | _, _, _, _ => none
      | _ => none
    | _ => none
  | c :: rest =>
    if c.toNat < 32 then none
    else (parseStringBody rest).map (fun p => (c :: p.1, p.2))

/-- JSON number per the strict grammar `-?(0|[1-9][0-9]*)(\.[0-9]+)?([eE][+-]?[0-9]+)?`,
returning the exact rational value and the remaining input.  The value is
assembled with `mkRat` from integer mantissa and power-of-ten scale. -/
def parseNumber (l : List Char) : Option (ℚ × List Char) :=
  let (neg, l1) : Bool × List Char :=
    match l with
    | '-' :: r => (true, r)
    | _ => (false, l)
  let intPart : Option (Nat × List Char) :=
    match l1 with
    | '0' :: r => some (0, r)
    | c :: _ =>
      if isDigitCh c && c != '0' then
        some (digitsToNat (l1.takeWhile isDigitCh), l1.dropWhile isDigitCh)
      else none
    | [] => none
  match intPart with
  | none => none
  | some (ip, r1) =>
    let fracPart : Option (Nat × Nat × List Char) :=
      match r1 with
      | '.' :: r2 =>
        let ds := r2.takeWhile isDigitCh
        if ds.isEmpty then none
        else some (digitsToNat ds, ds.length, r2.dropWhile isDigitCh)
      | _ => some (0, 0, r1)
    match fracPart with
    | none => none
    | some (fd, fk, r2) =>
      let expPart : Option (Bool × Nat × List Char) :=
        match r2 with
        | 'e' :: r3 | 'E' :: r3 =>
          let (eneg, r4) : Bool × List Char :=
            match r3 with
            | '+' :: r5 => (false, r5)
            | '-' :: r5 => (true, r5)
            | _ => (false, r3)
          let ds := r4.takeWhile isDigitCh
          if ds.isEmpty then none
          else some (eneg, digitsToNat ds, r4.dropWhile isDigitCh)
        | _ => some (false, 0, r2)
      match expPart with
      | none => none
      | some (eneg, emag, r3) =>
        let mant : Nat := ip * 10 ^ fk + fd
        let snum : Int := if neg then -(mant : Int) else (mant : Int)
        let q : ℚ :=
          if eneg then mkRat snum (10 ^ fk * 10 ^ emag)
          else mkRat (snum * (10 : Int) ^ emag) (10 ^ fk)
        some (q, r3)

/-- On duplicate object keys CPython keeps the first key's position with the
last value; only the value is observable through `get`, so we update in place. -/
def objInsert (fields : List (String × Json)) (k : String) (v : Json) :
    List (String × Json) :=
  if fields.any (fun p => p.1 == k) then
    fields.map (fun p => if p.1 == k then (k, v) else p)
  else fields ++ [(k, v)]

mutual

/-- One JSON value starting at the head of the input (leading whitespace
already consumed). -/
def parseValue : Nat → List Char → Option (Json × List Char)
  | 0, _ => none
  | fuel + 1, l =>
    match l with
    | '"' :: r => (parseStringBody r).map (fun p => (Json.str (String.mk p.1), p.2))
    | '{' :: r =>
      match skipWs r with
      | '}' :: rest => some (Json.obj [], rest)
      | r1 => parseMembers fuel r1 []
    | '[' :: r =>
      match skipWs r with
      | ']' :: rest => some (Json.arr [], rest)
      | r1 => parseElements fuel r1 []
    | 't' :: 'r' :: 'u' :: 'e' :: rest => some (Json.bool true, rest)
    | 'f' :: 'a' :: 'l' :: 's' :: 'e' :: rest => some (Json.bool false, rest)
    | 'n' :: 'u' :: 'l' :: 'l' :: rest => some (Json.null, rest)
    | _ => (parseNumber l).map (fun p => (Json.num p.1, p.2))

/-- Members of an object after `{`, at least one expected. -/
def parseMembers : Nat → List Char → List (String × Json) →
    Option (Json × List Char)
  | 0, _, _ => none
  | fuel + 1, l, acc =>
    match l with
    | '"' :: r =>
      match parseStringBody r with
      | none => none
      | some (key, r1) =>
        match skipWs r1 with
        | ':' :: r2 =>
          match parseValue fuel (skipWs r2) with
          | none => none
          | some (v, r3) =>
            let acc1 := objInsert acc (String.mk key) v
            match skipWs r3 with
            | ',' :: r4 => parseMembers fuel (skipWs r4) acc1
            | '}' :: r4 => some (Json.obj acc1, r4)
            | _ => none
        | _ => none
    | _ => none

/-- Elements of an array after `[`, at least one expected. -/
def parseElements : Nat → List Char → List Json → Option (Json × List Char)
  | 0, _, _ => none
  | fuel + 1, l, acc =>
    match parseValue fuel l with
    | none => none
    | some (v, r1) =>
      match skipWs r1 with
      | ',' :: r2 => parseElements fuel (skipWs r2) (acc ++ [v])
      | ']' :: r2 => some (Json.arr (acc ++ [v]), r2)
      | _ => none

end

/-- Model of `json.loads`: one JSON value surrounded by optional whitespace; trailing
data is an error.  `none` models a raised `json.JSONDecodeError`. -/
def json_loads (s : String) : Option Json :=
  match parseValue (s.data.length + 1) (skipWs s.data) with
  | some (j, rest) => if (skipWs rest).isEmpty then some j else none
  | none => none

/-! ## Assistant response parsing — `groq_ask` (`src/app/auth.py` lines 112–116)

```python
text = r.json()["choices"][0]["message"]["content"]
match = re.search(r'\{[\s\S]*\}', text)
if match:
    return _json.loads(match.group())
return {"raw": text}
```

`re.search` with the greedy pattern `\{[\s\S]*\}` yields the leftmost-starting
match, which runs from the first `{` that has some `}` after it to the **last**
`}` of the whole text. -/

/-- Prefix of `l` up to and including the last `'}'` (meaningful only when `l`
contains one). -/
def upToLastClose (l : List Char) : List Char :=
  (l.reverse.dropWhile (fun c => !(c == '}'))).reverse

/-- Model of `re.search(r'\{[\s\S]*\}', text)`: leftmost match start is the first `{`
followed (anywhere later) by a `}`; the greedy `[\s\S]*` then extends the match
to the last `}` of the remaining text. -/
def extractBrace : List Char → Option (List Char)
  | [] => none
  | c :: rest =>
    if c == '{' && rest.contains '}' then some ('{' :: upToLastClose rest)
    else extractBrace rest

/-- The parse stage of `groq_ask` applied to the assistant response text.
`.error` models the uncaught `json.JSONDecodeError` escaping `groq_ask`. -/
def groq_ask_parse (text : String) : Except String Json :=
  match extractBrace text.data with
  | some span =>
    match json_loads (String.mk span) with
    | some j => Except.ok j
    | none => Except.error "JSONDecodeError"
  | none => Except.ok (Json.obj [("raw", Json.str text)])

/-! ## SHA-256 and HMAC-SHA256 (`hashlib.sha256`, `hmac.new`)

FIPS 180-4 / FIPS 198-1 over byte lists, with 32-bit words as `Nat` reduced
`% 2 ^ 32` where overflow matters. -/

/-- Addition modulo `2^32`. -/
def add32 (a b : Nat) : Nat := (a + b) % 4294967296

/-- Right rotation of a 32-bit word (input assumed `< 2^32`). -/
def rotr32 (n x : Nat) : Nat := ((x >>> n) ||| (x <<< (32 - n))) % 4294967296

def sha2Ch (x y z : Nat) : Nat := (x &&& y) ^^^ ((x ^^^ 4294967295) &&& z)

def sha2Maj (x y z : Nat) : Nat := (x &&& y) ^^^ (x &&& z) ^^^ (y &&& z)

def bsig0 (x : Nat) : Nat := rotr32 2 x ^^^ rotr32 13 x ^^^ rotr32 22 x
def bsig1 (x : Nat) : Nat := rotr32 6 x ^^^ rotr32 11 x ^^^ rotr32 25 x
def ssig0 (x : Nat) : Nat := rotr32 7 x ^^^ rotr32 18 x ^^^ (x >>> 3)
def ssig1 (x : Nat) : Nat := rotr32 17 x ^^^ rotr32 19 x ^^^ (x >>> 10)

/-- The eight SHA-256 initial hash values (FIPS 180-4 §5.3.3, in decimal). -/
def sha2Init : List Nat :=
  [1779033703, 3144134277, 1013904242, 2773480762,
   1359893119, 2600822924, 528734635, 1541459225]

/-- The 64 SHA-256 round constants (FIPS 180-4 §4.2.2, in decimal). -/
def sha2K : List Nat :=
  [1116352408, 1899447441, 3049323471, 3921009573, 961987163, 1508970993,
   2453635748, 2870763221, 3624381080, 310598401, 607225278, 1426881987,
   1925078388, 2162078206, 2614888103, 3248222580, 3835390401, 4022224774,
   264347078, 604807628, 770255983, 1249150122, 1555081692, 1996064986,
   2554220882, 2821834349, 2952996808, 3210313671, 3336571891, 3584528711,
   113926993, 338241895, 666307205, 773529912, 1294757372, 1396182291,
   1695183700, 1986661051, 2177026350, 2456956037, 2730485921, 2820302411,
   3259730800, 3345764771, 3516065817, 3600352804, 4094571909, 275423344,
   430227734, 506948616, 659060556, 883997877, 958139571, 1322822218,
   1537002063, 1747873779, 1955562222, 2024104815, 2227730452, 2361852424,
   2428436474, 2756734187, 3204031479, 3329325298]

/-- Big-endian 32-bit words from bytes, four at a time. -/
def bytesToWordsBE : List Nat → List Nat
  | a :: b :: c :: d :: rest => (((a * 256 + b) * 256 + c) * 256 + d) :: bytesToWordsBE rest
  | _ => []

/-- Extend the 16-word block to the 64-entry message schedule (48 steps). -/
def sha2Schedule : Nat → List Nat → List Nat
  | 0, w => w
  | fuel + 1, w =>
    let t := w.length
    let x := add32 (add32 (ssig1 (w.getD (t - 2) 0)) (w.getD (t - 7) 0))
                   (add32 (ssig0 (w.getD (t - 15) 0)) (w.getD (t - 16) 0))
    sha2Schedule fuel (w ++ [x])

/-- One round of the compression function on the working variables `[a..h]`. -/
def sha2Round (vars : List Nat) (k w : Nat) : List Nat :=
  match vars with
  | [a, b, c, d, e, f, g, h] =>
    let t1 := add32 h (add32 (bsig1 e) (add32 (sha2Ch e f g) (add32 k w)))
    let t2 := add32 (bsig0 a) (sha2Maj a b c)
    [add32 t1 t2, a, b, c, add32 d t1, e, f, g]
  | _ => vars

def sha2Rounds : List (Nat × Nat) → List Nat → List Nat
  | [], vars => vars
  | (k, w) :: rest, vars => sha2Rounds rest (sha2Round vars k w)

/-- Compress one 64-byte block into the 8-word state. -/
def sha2Compress (st : List Nat) (block : List Nat) : List Nat :=
  let w := sha2Schedule 48 (bytesToWordsBE block)
  let vars := sha2Rounds (sha2K.zip w) st
  List.zipWith add32 st vars

def sha2Blocks : Nat → List Nat → List Nat → List Nat
  | 0, st, _ => st
  | _, st, [] => st
  | fuel + 1, st, bytes => sha2Blocks fuel (sha2Compress st (bytes.take 64)) (bytes.drop 64)

/-- Big-endian 8-byte encoding of a 64-bit length. -/
def be64 (n : Nat) : List Nat :=
  [n >>> 56 % 256, n >>> 48 % 256, n >>> 40 % 256, n >>> 32 % 256,
   n >>> 24 % 256, n >>> 16 % 256, n >>> 8 % 256, n % 256]

/-- Big-endian 4-byte encoding of a 32-bit word. -/
def be32 (x : Nat) : List Nat :=
  [x >>> 24 % 256, x >>> 16 % 256, x >>> 8 % 256, x % 256]

/-- SHA-256 padding: `0x80`, zeros to 56 mod 64, then the bit length. -/
def sha2Pad (msg : List Nat) : List Nat :=
  let len := msg.length
  let zeros := (56 + 64 - (len + 1) % 64) % 64
  msg ++ [0x80] ++ List.replicate zeros 0 ++ be64 (len * 8)

/-- SHA-256 of a byte list, as 32 bytes. -/
def sha256 (msg : List Nat) : List Nat :=
  let padded := sha2Pad msg
  ((sha2Blocks padded.length sha2Init padded).map be32).flatten

/-- HMAC-SHA256 (`hmac.new(key, msg, hashlib.sha256)`), as 32 bytes. -/
def hmacSha256 (key msg : List Nat) : List Nat :=
  let k0 := if 64 < key.length then sha256 key else key
  let kp := k0 ++ List.replicate (64 - k0.length) 0
  let ipad := kp.map (fun b => b ^^^ 0x36)
  let opad := kp.map (fun b => b ^^^ 0x5c)
  sha256 (opad ++ sha256 (ipad ++ msg))

/-- Lowercase hex digit, as indexed from `"0123456789abcdef"` by `hexdigest`. -/
def hexChar : Nat → Char
  | 0 => '0' | 1 => '1' | 2 => '2' | 3 => '3' | 4 => '4'
  | 5 => '5' | 6 => '6' | 7 => '7' | 8 => '8' | 9 => '9'
  | 10 => 'a' | 11 => 'b' | 12 => 'c' | 13 => 'd' | 14 => 'e' | 15 => 'f'
  | _ => '?'

/-- Model of `.hexdigest()`: two lowercase hex characters per byte. -/
def bytesToHexChars (l : List Nat) : List Char :=
  (l.map (fun b => [hexChar (b / 16), hexChar (b % 16)])).flatten

/-! ## Webhook signature verification (`src/server.py` lines 22–29, 42–49)

```python
def verify_signature(payload: bytes, signature: str) -> bool:
    if not WEBHOOK_SECRET:
        return True  # Skip in dev mode
    expected = "sha256=" + hmac.new(
        WEBHOOK_SECRET.encode(), payload, hashlib.sha256
    ).hexdigest()
    return hmac.compare_digest(expected, signature or "")
```
-/

/-- The characters of the expected header `"sha256=" + hexdigest`. -/
def sigChars (secret payload : List Nat) : List Char :=
  "sha256=".data ++ bytesToHexChars (hmacSha256 secret payload)

/-- The expected signature header as a string. -/
def goodSig (secret payload : List Nat) : String :=
  String.mk (sigChars secret payload)

def isAsciiStr (s : String) : Bool := s.data.all (fun c => c.toNat < 128)

/-- Model of `hmac.compare_digest` on two `str` arguments: CPython requires both to be
ASCII-only and raises `TypeError` otherwise; on ASCII inputs it returns
(constant-time) string equality. -/
def compare_digest (a b : String) : Except String Bool :=
  if isAsciiStr a && isAsciiStr b then Except.ok (a.data == b.data)
  else Except.error "TypeError"

/-- Model of `verify_signature(payload, signature)` with the configured shared secret
(already UTF-8 encoded) made explicit.  `signature or ""` maps the empty
string to itself, so on the strings the webhook passes it is the identity. -/
def verify_signature (secret payload : List Nat) (signature : String) :
    Except String Bool :=
  if secret.isEmpty then Except.ok true
  else compare_digest (goodSig secret payload) signature

/-! ### The envelope parse — `request.get_json(force=True)` (`src/server.py` line 52)

With `force=True` Flask parses the raw request bytes unconditionally:
`json.loads` on `bytes` first runs `json.detect_encoding` (BOM and null-byte
sniffing), strictly decodes with the detected codec, then parses the text; any
`ValueError` (decode or parse failure) becomes a `BadRequest`, a 400 response
with no handler invoked. -/

/-- Whether a byte is a UTF-8 continuation byte `10xxxxxx`. -/
def isUtf8Cont (b : Nat) : Bool := 128 ≤ b && b ≤ 191

/-- Strict UTF-8 decoding (shortest-form only, surrogates rejected), as
CPython's `utf-8` codec performs it; `none` models `UnicodeDecodeError`. -/
def utf8DecodeChars : List Nat → Option (List Char)
  | [] => some []
  | b :: rest =>
    if b ≤ 127 then
      (utf8DecodeChars rest).map (fun cs => Char.ofNat b :: cs)
    else if 194 ≤ b && b ≤ 223 then
      match rest with
      | b2 :: rest2 =>
        if isUtf8Cont b2 then
          (utf8DecodeChars rest2).map
            (fun cs => Char.ofNat ((b - 192) * 64 + (b2 - 128)) :: cs)
        else none
      | [] => none
    else if 224 ≤ b && b ≤ 239 then
      match rest with
      | b2 :: b3 :: rest2 =>
        let lo2 := if b == 224 then 160 else 128
        let hi2 := if b == 237 then 159 else 191
        if lo2 ≤ b2 && b2 ≤ hi2 && isUtf8Cont b3 then
          (utf8DecodeChars rest2).map
            (fun cs => Char.ofNat (((b - 224) * 64 + (b2 - 128)) * 64 + (b3 - 128)) :: cs)
        else none
      | _ => none
    else if 240 ≤ b && b ≤ 244 then
      match rest with
      | b2 :: b3 :: b4 :: rest2 =>
        let lo2 := if b == 240 then 144 else 128
        let hi2 := if b == 244 then 143 else 191
        if lo2 ≤ b2 && b2 ≤ hi2 && isUtf8Cont b3 && isUtf8Cont b4 then
          (utf8DecodeChars rest2).map
            (fun cs => Char.ofNat
              ((((b - 240) * 64 + (b2 - 128)) * 64 + (b3 - 128)) * 64 + (b4 - 128)) :: cs)
        else none
      | _ => none
    else none

/-- UTF-16 code units from bytes (little- or big-endian); an odd trailing byte
is truncated data, an error under strict decoding. -/
def utf16Units (le : Bool) : List Nat → Option (List Nat)
  | [] => some []
  | b0 :: b1 :: rest =>
    (utf16Units le rest).map
      (fun us => (if le then b0 + 256 * b1 else 256 * b0 + b1) :: us)
  | _ => none

/-- Surrogate-pair combination for UTF-16; unpaired surrogates are errors. -/
def utf16Combine : List Nat → Option (List Char)
  | [] => some []
  | u :: rest =>
    if u < 55296 || 57343 < u then
      (utf16Combine rest).map (fun cs => Char.ofNat u :: cs)
    else if u ≤ 56319 then
      match rest with
      | u2 :: rest2 =>
        if 56320 ≤ u2 && u2 ≤ 57343 then
          (utf16Combine rest2).map
            (fun cs => Char.ofNat (65536 + (u - 55296) * 1024 + (u2 - 56320)) :: cs)
        else none
      | [] => none
    else none

/-- Strict UTF-16 decoding. -/
def utf16Decode (le : Bool) (b : List Nat) : Option (List Char) :=
  (utf16Units le b).bind utf16Combine

/-- Strict UTF-32 decoding: 4-byte groups, surrogates and values beyond
`0x10FFFF` rejected, truncated groups an error. -/
def utf32Decode (le : Bool) : List Nat → Option (List Char)
  | [] => some []
  | b0 :: b1 :: b2 :: b3 :: rest =>
    let cp := if le then ((b3 * 256 + b2) * 256 + b1) * 256 + b0
              else ((b0 * 256 + b1) * 256 + b2) * 256 + b3
    if cp < 1114112 && !(55296 ≤ cp && cp ≤ 57343) then
      (utf32Decode le rest).map (fun cs => Char.ofNat cp :: cs)
    else none
  | _ => none

/-- Model of `b.decode(json.detect_encoding(b))`: BOM sniffing first (UTF-32
before UTF-16, then the UTF-8 BOM, each stripped by its codec), then the
null-byte heuristics on the first four (or exactly two) bytes, defaulting to
UTF-8.  `none` models the `UnicodeDecodeError` a strict decode raises. -/
def pyDecodeForJson (b : List Nat) : Option (List Char) :=
  match b with
  | 0 :: 0 :: 254 :: 255 :: rest => utf32Decode false rest
  | 255 :: 254 :: 0 :: 0 :: rest => utf32Decode true rest
  | 254 :: 255 :: rest => utf16Decode false rest
  | 255 :: 254 :: rest => utf16Decode true rest
  | 239 :: 187 :: 191 :: rest => utf8DecodeChars rest
  | b0 :: b1 :: b2 :: b3 :: _ =>
    if b0 == 0 then
      (if !(b1 == 0) then utf16Decode false b else utf32Decode false b)
    else if b1 == 0 then
      (if !(b2 == 0) || !(b3 == 0) then utf16Decode true b else utf32Decode true b)
    else utf8DecodeChars b
  | [b0, b1] =>
    if b0 == 0 then utf16Decode false b
    else if b1 == 0 then utf16Decode true b
    else utf8DecodeChars b
  | _ => utf8DecodeChars b

/-- Model of `request.get_json(force=True)` on the raw body bytes: decode per
the detected encoding, then `json.loads` the text; `none` models the
`BadRequest` Flask raises when either step fails.  (The route's `or {}` only
substitutes `{}` for a falsy parsed payload; it does not affect whether the
parse succeeds or a handler runs.) -/
def get_json_force (body : List Nat) : Option Json :=
  (pyDecodeForJson body).bind (fun cs => json_loads (String.mk cs))

/-- The event types the webhook dispatches to a handler
(`src/server.py` lines 57–64). -/
def HANDLED_EVENTS : List String := ["pull_request", "issues", "issue_comment", "push"]

/-- Outcome of the `/webhook` route's gate: HTTP status, whether an event
handler was invoked, and whether an exception escaped the route function
(Flask maps an escaping `BadRequest` to its 400 and any other exception to a
generic 500, in both cases with no handler run). -/
structure GateResult where
  status : Nat
  handlerInvoked : Bool
  raised : Bool
deriving Repr, DecidableEq

/-- The `/webhook` route (`src/server.py` lines 42–56): read the signature
header (missing header becomes `""`), check the signature when a secret is
configured, parse the body with `request.get_json(force=True)` (line 52 — a
non-JSON body raises `BadRequest`, a 400 with no handler), then dispatch on
the event type.  Handler internals are out of scope here; `handlerInvoked`
records whether one of the four handlers is entered. -/
def webhook_gate (secret body : List Nat) (sigHeader : Option String)
    (event : String) : GateResult :=
  let sig := sigHeader.getD ""
  let afterSig : GateResult :=
    match get_json_force body with
    | none => { status := 400, handlerInvoked := false, raised := true }
    | some _ =>
      { status := 200, handlerInvoked := HANDLED_EVENTS.contains event, raised := false }
  if secret.isEmpty then afterSig
  else
    match verify_signature secret body sig with
    | Except.error _ => { status := 500, handlerInvoked := false, raised := true }
    | Except.ok false => { status := 401, handlerInvoked := false, raised := false }
    | Except.ok true => afterSig

/-! ## Installation-token cache (`src/app/auth.py` lines 33–57)

```python
def get_installation_token(installation_id: int) -> str:
    cached = _token_cache.get(installation_id)
    if cached and cached["expires"] > time.time() + 60:
        return cached["token"]
    ...
    _token_cache[installation_id] = {
        "token": token,
        "expires": time.time() + (50 * 60)
    }
    return token
```

Wall-clock time is a `ℚ` parameter `now` (the two `time.time()` reads inside one
call are microseconds apart; they are modelled as the same instant).  The token
the exchange would return is the oracle parameter `fresh`; the `Bool` in the
result records whether the exchange network call was performed.  The
`AuthError` path (`raise_for_status`) aborts the call without touching the
cache and is not reachable in the success-path claims modelled here. -/

structure TokenEntry where
  token : String
  expires : ℚ
deriving Repr, DecidableEq

/-- The `_token_cache` dict, keyed by installation id. -/
abbrev TokenCache := List (Nat × TokenEntry)

/-- Model of `dict.get`. -/
def cacheGet (c : TokenCache) (instId : Nat) : Option TokenEntry :=
  (List.find? (fun p => p.1 == instId) c).map (fun p => p.2)

/-- Model of `dict[k] = v`: overwrite the whole entry for the key in place
(dict keys are unique), appending when the key is new. -/
def cacheSet : TokenCache → Nat → TokenEntry → TokenCache
  | [], instId, e => [(instId, e)]
  | (k, v) :: rest, instId, e =>
    if k == instId then (instId, e) :: rest else (k, v) :: cacheSet rest instId e

/-- Model of `get_installation_token`: returns the token, the updated cache, and whether
the token-exchange network call happened. -/
def get_installation_token (c : TokenCache) (instId : Nat) (now : ℚ)
    (fresh : String) : String × TokenCache × Bool :=
  match cacheGet c instId with
  | some e =>
    if now + 60 < e.expires then (e.token, c, false)
    else (fresh, cacheSet c instId ⟨fresh, now + 3000⟩, true)
  | none => (fresh, cacheSet c instId ⟨fresh, now + 3000⟩, true)

/-! ## Outbound effects of the handlers -/

/-- One outbound network call, as the handlers issue them. -/
inductive Effect where
  | tokenExchange : Effect
  | ghGet (path : String) : Effect
  | ghPost (path : String) : Effect
  | ghPatch (path : String) : Effect
  | groqAsk : Effect
  | groqText : Effect
deriving Repr, DecidableEq

/-- One changed file of a PR, with the fields the review pass reads. -/
structure PRFile where
  filename : String
  status : String
  changes : Nat
  patch : String
deriving Repr, DecidableEq

/-- One commit of a push payload (`c["id"]`, `c["message"]`). -/
structure Commit where
  id : String
  message : String
deriving Repr, DecidableEq

def SKIP_AUTHORS : List String :=
  ["dependabot[bot]", "renovate[bot]", "github-actions[bot]"]

/-- Whether `needle` occurs at the start of `hay`. -/
def startsWithChars : List Char → List Char → Bool
  | [], _ => true
  | _ :: _, [] => false
  | p :: ps, c :: cs => (c == p) && startsWithChars ps cs

/-- Python `needle in hay` on strings: substring occurrence. -/
def hasSubstr (needle : List Char) : List Char → Bool
  | [] => needle.isEmpty
  | c :: rest => startsWithChars needle (c :: rest) || hasSubstr needle rest

/-- Python whitespace stripped by `str.strip()` (the ASCII whitespace class;
no input in scope carries non-ASCII whitespace). -/
def isPySpace (c : Char) : Bool :=
  c == ' ' || c == '\t' || c == '\n' || c.toNat == 11 || c.toNat == 12 || c.toNat == 13

/-- Model of `str.strip()`. -/
def pyStrip (s : String) : String :=
  String.mk (((s.data.dropWhile isPySpace).reverse.dropWhile isPySpace).reverse)

/-! ## Pull-request patch decision (`src/app/handlers.py` lines 76–81)

```python
    patch_data = {}
    if result.get("improved_title") and result["improved_title"] != title:
        patch_data["title"] = result["improved_title"]
    if not body or len(body.strip()) < 30:
        patch_data["body"] = result.get("description", body)

    if patch_data:
        gh_patch(...)
```
-/

/-- Python `x != title` where `x` is a JSON value and `title` a `str`:
values of a different type are always unequal. -/
def jNeqStr (v : Json) (s : String) : Bool :=
  match v with
  | .str t => !(t == s)
  | _ => true

/-- The guard putting `"title"` into `patch_data`. -/
def pr_title_cond (title : String) (result : Json) : Bool :=
  match jget result "improved_title" with
  | some v => pyTruthy v && jNeqStr v title
  | none => false

/-- The guard putting `"body"` into `patch_data`. -/
def pr_body_cond (body : String) : Bool :=
  (body == "") || decide ((pyStrip body).length < 30)

/-- The `patch_data` dict as (optional title value, optional body value). -/
def pr_patch_data (title body : String) (result : Json) : Option Json × Option Json :=
  (if pr_title_cond title result then jget result "improved_title" else none,
   if pr_body_cond body then some (jgetD result "description" (Json.str body)) else none)

/-- Whether the PATCH request is sent (`if patch_data: gh_patch(...)`). -/
def pr_patch_applied (title body : String) (result : Json) : Bool :=
  (pr_patch_data title body result).1.isSome || (pr_patch_data title body result).2.isSome

/-! ## PR code review pass (`src/app/handlers.py` lines 119–200) -/

def REVIEWABLE_EXT : List String :=
  [".py", ".js", ".ts", ".jsx", ".tsx", ".go", ".java", ".sql", ".rs"]

/-- The reviewable selection: extension allow-list, not removed, nonzero
changes, first 4. -/
def reviewable_files (files : List PRFile) : List PRFile :=
  (files.filter (fun f =>
    REVIEWABLE_EXT.any (fun e => decide (e.data <:+ f.filename.data)) &&
    !(f.status == "removed") && decide (0 < f.changes))).take 4

/-- The per-file review results kept: `if result.get("score"): reviews.append(...)`.
`oracle` supplies the parsed assistant response for each file. -/
def collect_reviews (files : List PRFile) (oracle : String → Json) :
    List (String × Json) :=
  (reviewable_files files).filterMap (fun f =>
    let r := oracle f.filename
    if jTruthyAt r "score" then some (f.filename, r) else none)

/-- Model of `r.get("issues", [])`, as a list (every response in scope is a list there). -/
def jgetArr (r : Json) (key : String) : List Json :=
  match jget r key with
  | some (.arr xs) => xs
  | _ => []

/-- All issues gathered across the kept reviews. -/
def gathered_issues (reviews : List (String × Json)) : List Json :=
  (reviews.map (fun p => jgetArr p.2 "issues")).flatten

/-- Model of `i.get("severity") == "critical"`. -/
def isCriticalIssue (i : Json) : Bool :=
  match jget i "severity" with
  | some (.str s) => s == "critical"
  | _ => false

/-- Model of `_run_code_review` as its outbound-call trace: one fast-tier assistant call
per reviewable file, then (only when some review was kept) the review comment
post and, when a critical issue was gathered, the critical-label post. -/
def run_code_review (repo : String) (prNumber : Nat) (files : List PRFile)
    (oracle : String → Json) : List Effect :=
  let rv := reviewable_files files
  if rv.isEmpty then []
  else
    let reviews := collect_reviews files oracle
    rv.map (fun _ => Effect.groqAsk) ++
      (if reviews.isEmpty then []
       else
        [Effect.ghPost ("/repos/" ++ repo ++ "/issues/" ++ toString prNumber ++ "/comments")] ++
          (if (gathered_issues reviews).any isCriticalIssue then
            [Effect.ghPost ("/repos/" ++ repo ++ "/issues/" ++ toString prNumber ++ "/labels")]
           else []))

/-- Recognizer for posting effects (comments, labels, issues). -/
def isPostEffect : Effect → Bool
  | .ghPost _ => true
  | _ => false

/-! ## Issue-comment command dispatch (`src/app/handlers.py` lines 285–376) -/

def COMMANDS : List String := ["/fix", "/explain", "/improve", "/test", "/docs", "/review"]

/-- Model of `next((c for c in COMMANDS if c in body.lower()), None)`. -/
def find_command (body : String) : Option String :=
  List.find? (fun c => hasSubstr c.data (body.data.map Char.toLower)) COMMANDS

/-- Model of `handle_issue_comment` as its outbound-call trace.  On a recognized command
the handler exchanges a token, fetches the parent issue (a network call even
though its failure is tolerated), issues the command's own assistant call
(`/explain` uses the plain-text endpoint, `/review` calls no assistant), and —
since every command's rendered response is non-empty — posts exactly one reply
comment. -/
def handle_issue_comment (action author body repo : String) (issueNumber : Nat) :
    List Effect :=
  if !(action == "created") then []
  else if SKIP_AUTHORS.contains author || decide ("[bot]".data <:+ author.data) then []
  else
    match find_command body with
    | none => []
    | some cmd =>
      [Effect.tokenExchange,
       Effect.ghGet ("/repos/" ++ repo ++ "/issues/" ++ toString issueNumber)] ++
      (if cmd == "/explain" then [Effect.groqText]
       else if cmd == "/review" then []
       else [Effect.groqAsk]) ++
      [Effect.ghPost ("/repos/" ++ repo ++ "/issues/" ++ toString issueNumber ++ "/comments")]

/-! ## Push handler (`src/app/handlers.py` lines 383–435) -/

/-- Model of `if not any(b in ref for b in ["/main", "/master"])`: substring
containment, not a suffix test. -/
def pushRefMatches (ref : String) : Bool :=
  hasSubstr "/main".data ref.data || hasSubstr "/master".data ref.data

def CONVENTIONAL_TYPES : List String :=
  ["feat", "fix", "docs", "style", "refactor", "perf", "test", "chore", "ci",
   "build", "revert"]

/-- Case-insensitive literal match at the start (the pattern is lowercase). -/
def startsWithCI : List Char → List Char → Bool
  | [], _ => true
  | _ :: _, [] => false
  | p :: ps, c :: cs => (c.toLower == p) && startsWithCI ps cs

/-- Match of `': '` followed by at least one character — the tail `: .+` of the
conventional-commit pattern. -/
def colonDescMatch : List Char → Bool
  | ':' :: ' ' :: _ :: _ => true
  | _ => false

/-- Match of `(!)?: .+`. -/
def bangColonMatch (l : List Char) : Bool :=
  colonDescMatch l ||
    (match l with
     | '!' :: r => colonDescMatch r
     | _ => false)

/-- Match of `\(.+\)(!)?: .+`: some closing parenthesis with a non-empty inside, the
rest matching `(!)?: .+` (the regex backtracks, so existence over the split
point is the right semantics). -/
def parenBangColonMatch (l : List Char) : Bool :=
  match l with
  | '(' :: rest =>
    (List.range rest.length).any (fun k =>
      decide (1 ≤ k) && (rest.getD k ' ' == ')') && bangColonMatch (rest.drop (k + 1)))
  | _ => false

/-- Model of `re.match` of `^(feat|fix|...)(\(.+\))?(!)?: .+` with `re.IGNORECASE`
against one line. -/
def conventionalMatch (line : List Char) : Bool :=
  CONVENTIONAL_TYPES.any (fun ty =>
    startsWithCI ty.data line &&
      (let rest := line.drop ty.length
       bangColonMatch rest || parenBangColonMatch rest))

/-- Model of `message.split("\n")[0]`. -/
def firstLineChars (s : String) : List Char :=
  s.data.takeWhile (fun c => !(c == '\n'))

/-- The non-conventional, non-merge commits among the first 10:
`(c["id"][:7], first line)` pairs. -/
def bad_commits (commits : List Commit) : List (String × String) :=
  ((commits.take 10).filter (fun c =>
      !(conventionalMatch (firstLineChars c.message)) &&
      !(startsWithChars "Merge".data c.message.data))).map
    (fun c => (String.mk (c.id.data.take 7), String.mk (firstLineChars c.message)))

/-- Truthiness of `payload.get("installation", {}).get("id")`. -/
def instIdTruthy : Option Nat → Bool
  | none => false
  | some 0 => false
  | some (_ + 1) => true

/-- Model of `handle_push` as its outbound-call trace: nothing unless the ref contains
`/main` or `/master` and a truthy installation id is present; then, when any
bad commit exists, a token exchange, and when at least 3 exist, one alert
issue post. -/
def handle_push (ref repo : String) (commits : List Commit)
    (instId : Option Nat) : List Effect :=
  if !(pushRefMatches ref) then []
  else if !(instIdTruthy instId) then []
  else
    let bad := bad_commits commits
    if bad.isEmpty then []
    else
      [Effect.tokenExchange] ++
        (if 3 ≤ bad.length then [Effect.ghPost ("/repos/" ++ repo ++ "/issues")]
         else [])

/-! ## Supporting lemmas -/

/-- A text without `'{'` has no match of the brace pattern. -/
theorem extractBrace_eq_none_of_no_open (l : List Char) (h : '{' ∉ l) :
    extractBrace l = none := by
  induction l with
  | nil => rfl
  | cons c rest ih =>
    rw [List.mem_cons, not_or] at h
    have hc : (c == '{') = false := beq_eq_false_iff_ne.mpr (fun hcc => h.1 hcc.symm)
    simp [extractBrace, hc, ih h.2]

/-- Overwriting a cache entry makes lookup of that id return exactly the new
entry. -/
theorem cacheGet_cacheSet_self (c : TokenCache) (instId : Nat) (e : TokenEntry) :
    cacheGet (cacheSet c instId e) instId = some e := by
  induction c with
  | nil => simp [cacheSet, cacheGet, List.find?]
  | cons hd tl ih =>
    obtain ⟨k, v⟩ := hd
    by_cases hk : k = instId
    · subst hk
      simp [cacheSet, cacheGet, List.find?]
    · have hkb : (k == instId) = false := beq_eq_false_iff_ne.mpr hk
      simpa [cacheSet, cacheGet, List.find?, hkb] using ih

/-- Overwriting a cache entry leaves every other id's lookup unchanged. -/
theorem cacheGet_cacheSet_ne (c : TokenCache) (instId id2 : Nat) (e : TokenEntry)
    (hne : id2 ≠ instId) :
    cacheGet (cacheSet c instId e) id2 = cacheGet c id2 := by
  have hib : (instId == id2) = false := beq_eq_false_iff_ne.mpr (fun h => hne h.symm)
  induction c with
  | nil => simp [cacheSet, cacheGet, List.find?, hib]
  | cons hd tl ih =>
    obtain ⟨k, v⟩ := hd
    by_cases hk : k = instId
    · subst hk
      simp [cacheSet, cacheGet, List.find?, hib]
    · have hkb : (k == instId) = false := beq_eq_false_iff_ne.mpr hk
      by_cases hk2 : k = id2
      · subst hk2
        simp [cacheSet, cacheGet, List.find?, hkb]
      · have hk2b : (k == id2) = false := beq_eq_false_iff_ne.mpr hk2
        simpa [cacheSet, cacheGet, List.find?, hkb, hk2b] using ih

/-! ## Claim C1 — assistant response parsing in `groq_ask` -/

/-- C1 counterexample: the claim says `groq_ask` never raises on parse failure
and extracts the *first* brace-delimited object.  In fact `re.search` with the
greedy pattern spans from the first `{` to the *last* `}`; on a response
containing two JSON objects the span is not valid JSON and the unguarded
`json.loads` raises, escaping `groq_ask`. -/
theorem groq_ask_parse_cex :
    groq_ask_parse "x \x7b\"a\": 1\x7d y \x7b\"b\": 2\x7d z" =
      Except.error "JSONDecodeError" := by rfl

/-- C1 (amended): on a response text with no `{`, `groq_ask` returns the
fallback object `{"raw": text}` without raising; when the greedy brace span
(first `{` with a later `}`, through the last `}`) parses as JSON, the parsed
object is returned; when the span exists but is not valid JSON, a
`JSONDecodeError` escapes — parse failure can raise after all. -/
theorem groq_ask_parse_spec (text : String) :
    ('{' ∉ text.data →
      groq_ask_parse text = Except.ok (Json.obj [("raw", Json.str text)])) ∧
    (∀ span j, extractBrace text.data = some span →
      json_loads (String.mk span) = some j → groq_ask_parse text = Except.ok j) ∧
    (∀ span, extractBrace text.data = some span →
      json_loads (String.mk span) = none →
      groq_ask_parse text = Except.error "JSONDecodeError") := by
  refine ⟨fun h => ?_, fun span j h1 h2 => ?_, fun span h1 h2 => ?_⟩
  · unfold groq_ask_parse
    rw [extractBrace_eq_none_of_no_open _ h]
  · simp [groq_ask_parse, h1, h2]
  · simp [groq_ask_parse, h1, h2]

/-- C1 witness: on the spec's own example text, the brace span parses and the
object is returned, by the amended theorem. -/
theorem groq_ask_parse_spec_witness :
    groq_ask_parse "prefix \x7b \"a\": 1 \x7d suffix" =
      Except.ok (Json.obj [("a", Json.num 1)]) :=
  (groq_ask_parse_spec _).2.1 _ _ rfl rfl

/-! ## Claim C3 — token cache validity margin and overwrite -/

/-- C3: a cached token is returned (no network call) only when its expiry is
more than 60 seconds away — in particular at least 60 seconds of validity
remain — and the cache is untouched; otherwise the exchange happens, the
fresh token is returned, and the cache entry for that installation is replaced
wholesale (entries of other installations untouched).  The third conjunct
characterises exactly when the exchange happens: cache miss or insufficient
remaining validity. -/
theorem get_installation_token_spec (c : TokenCache) (instId : Nat) (now : ℚ)
    (fresh : String) :
    ((get_installation_token c instId now fresh).2.2 = false →
      ∃ e, cacheGet c instId = some e ∧ now + 60 < e.expires ∧
        (get_installation_token c instId now fresh).1 = e.token ∧
        (get_installation_token c instId now fresh).2.1 = c) ∧
    ((get_installation_token c instId now fresh).2.2 = true →
      (get_installation_token c instId now fresh).1 = fresh ∧
      cacheGet (get_installation_token c instId now fresh).2.1 instId =
        some ⟨fresh, now + 3000⟩ ∧
      ∀ id2, id2 ≠ instId →
        cacheGet (get_installation_token c instId now fresh).2.1 id2 =
          cacheGet c id2) ∧
    ((get_installation_token c instId now fresh).2.2 = true ↔
      cacheGet c instId = none ∨
        ∃ e, cacheGet c instId = some e ∧ e.expires ≤ now + 60) := by
  rcases h : cacheGet c instId with _ | e
  · have hres : get_installation_token c instId now fresh =
        (fresh, cacheSet c instId ⟨fresh, now + 3000⟩, true) := by
      simp [get_installation_token, h]
    rw [hres]
    refine ⟨fun hf => by simp at hf, fun _ => ⟨rfl, cacheGet_cacheSet_self _ _ _,
      fun id2 hne => cacheGet_cacheSet_ne _ _ _ _ hne⟩, ?_⟩
    simp [h]
  · by_cases hlt : now + 60 < e.expires
    · have hres : get_installation_token c instId now fresh = (e.token, c, false) := by
        simp [get_installation_token, h, hlt]
      rw [hres]
      refine ⟨fun _ => ⟨e, rfl, hlt, rfl, rfl⟩, fun hf => by simp at hf, ?_⟩
      constructor
      · intro hf
        simp at hf
      · rintro (hnone | ⟨e2, he2, hle⟩)
        · cases hnone
        · injection he2 with he2
          subst he2
          linarith
    · have hres : get_installation_token c instId now fresh =
          (fresh, cacheSet c instId ⟨fresh, now + 3000⟩, true) := by
        simp [get_installation_token, h, hlt]
      rw [hres]
      refine ⟨fun hf => by simp at hf, fun _ => ⟨rfl, cacheGet_cacheSet_self _ _ _,
        fun id2 hne => cacheGet_cacheSet_ne _ _ _ _ hne⟩, ?_⟩
      constructor
      · intro _
        exact Or.inr ⟨e, rfl, le_of_not_lt hlt⟩
      · intro _
        rfl

/-- C3 witness: on a cache miss the exchange happens, the fresh token is
returned, and the overwritten entry is the freshly cached one. -/
theorem get_installation_token_spec_witness :
    (get_installation_token [] 1 0 "f").1 = "f" ∧
    cacheGet (get_installation_token [] 1 0 "f").2.1 1 =
      some ⟨"f", (0 : ℚ) + 3000⟩ :=
  ⟨((get_installation_token_spec [] 1 0 "f").2.1 rfl).1,
   ((get_installation_token_spec [] 1 0 "f").2.1 rfl).2.1⟩

/-! ## Claim C4 — one exchange per cache window -/

/-- C4 counterexample: two calls 2970 s apart — within 50 minutes (3000 s) —
both perform the exchange, because the 60-second validity margin shrinks the
reuse window of the 50-minute cache entry to 49 minutes. -/
theorem get_installation_token_two_calls_cex :
    (get_installation_token [] 1 0 "t1").2.2 = true ∧
    (get_installation_token
        (get_installation_token [] 1 0 "t1").2.1 1 2970 "t2").2.2 = true ∧
    (2970 : ℚ) < 50 * 60 := by
  refine ⟨rfl, ?_, by norm_num⟩
  norm_num [get_installation_token, cacheGet, cacheSet, List.find?]

/-- C4 (amended): starting from a cache with no entry for the installation,
the first call exchanges; a second call strictly less than 49 minutes
(2940 s) later is served from the cache with no second exchange and returns
the first token; a call 49 minutes or more after the first — in particular
any call after the 50-minute expiry — performs a second exchange. -/
theorem get_installation_token_window (c : TokenCache) (instId : Nat)
    (t0 t1 t2 : ℚ) (f1 f2 f3 : String)
    (hmiss : cacheGet c instId = none) :
    (get_installation_token c instId t0 f1).2.2 = true ∧
    (t1 < t0 + 2940 →
      (get_installation_token
        (get_installation_token c instId t0 f1).2.1 instId t1 f2).2.2 = false ∧
      (get_installation_token
        (get_installation_token c instId t0 f1).2.1 instId t1 f2).1 = f1) ∧
    (t0 + 2940 ≤ t2 →
      (get_installation_token
        (get_installation_token c instId t0 f1).2.1 instId t2 f3).2.2 = true) := by
  have hres1 : get_installation_token c instId t0 f1 =
      (f1, cacheSet c instId ⟨f1, t0 + 3000⟩, true) := by
    simp [get_installation_token, hmiss]
  have hov : cacheGet (get_installation_token c instId t0 f1).2.1 instId =
      some ⟨f1, t0 + 3000⟩ := by
    rw [hres1]
    exact cacheGet_cacheSet_self _ _ _
  refine ⟨by rw [hres1], fun h1 => ?_, fun h2 => ?_⟩
  · have hcond : t1 + 60 < t0 + 3000 := by linarith
    rw [hres1]
    constructor
    · simp [get_installation_token, cacheGet_cacheSet_self, hcond]
    · simp [get_installation_token, cacheGet_cacheSet_self, hcond]
  · have hcond : ¬(t2 + 60 < t0 + 3000) := by linarith
    rw [hres1]
    simp [get_installation_token, cacheGet_cacheSet_self, hcond]

/-- C4 witness: concrete runs of the amended windows — a hit at 100 s and a
forced refresh at 2940 s. -/
theorem get_installation_token_window_witness :
    ((get_installation_token
        (get_installation_token [] 1 0 "t1").2.1 1 100 "t2").2.2 = false ∧
      (get_installation_token
        (get_installation_token [] 1 0 "t1").2.1 1 100 "t2").1 = "t1") ∧
    (get_installation_token
        (get_installation_token [] 1 0 "t1").2.1 1 2940 "t3").2.2 = true :=
  ⟨(get_installation_token_window [] 1 0 100 2940 "t1" "t2" "t3" rfl).2.1
      (by norm_num),
   (get_installation_token_window [] 1 0 100 2940 "t1" "t2" "t3" rfl).2.2
      (by norm_num)⟩

/-! ## Claim C5 — PR title/body patch condition -/

/-- C5 counterexample: the code tests `len(body.strip()) < 30`, not the body
length.  A non-empty 39-character body of 29 letters padded with 10 trailing
spaces strips to 29 characters, so the patch is applied (overwriting the
body), while the claimed condition — body empty, or body length under 30, or
the AI title (here equal to the current title) differing — is false. -/
theorem pr_patch_cex :
    pr_patch_applied "t" (String.mk (List.replicate 29 'a' ++ List.replicate 10 ' '))
      (Json.obj [("improved_title", Json.str "t"), ("description", Json.str "d")]) =
      true ∧
    ¬(String.mk (List.replicate 29 'a' ++ List.replicate 10 ' ') = "" ∨
      (String.mk (List.replicate 29 'a' ++ List.replicate 10 ' ')).length < 30 ∨
      "t" ≠ "t") := by decide

/-- C5 (amended): the PATCH request is sent iff (the body is empty or its
whitespace-stripped length is under 30) or (the AI-suggested title is truthy
and differs from the current title); and the body field is part of the patch
iff the body condition holds — so a title-only patch never carries a body and
never overwrites an existing body. -/
theorem pr_patch_spec (title body : String) (result : Json) :
    pr_patch_applied title body result =
      (pr_body_cond body || pr_title_cond title result) ∧
    ((pr_patch_data title body result).2 = none ↔ pr_body_cond body = false) := by
  constructor
  · unfold pr_patch_applied pr_patch_data
    rcases h : jget result "improved_title" with _ | v
    · have ht : pr_title_cond title result = false := by
        simp [pr_title_cond, h]
      cases hb : pr_body_cond body <;> simp [ht, hb]
    · cases ht : pr_title_cond title result
      · cases hb : pr_body_cond body <;> simp [ht, hb]
      · simp [ht, h]
  · unfold pr_patch_data
    cases hb : pr_body_cond body <;> simp [hb]

/-! ## Claim C6 — push handler ref test and alert threshold -/

/-- C6 counterexample: the code tests `"/main" in ref` (substring), not a
suffix, so a push of three non-conventional commits to
`refs/heads/maintenance` — a ref that ends in neither `/main` nor `/master` —
opens the alert issue. -/
theorem handle_push_cex :
    handle_push "refs/heads/maintenance" "r"
        [⟨"a1", "foo"⟩, ⟨"a2", "bar"⟩, ⟨"a3", "baz"⟩] (some 1) =
      [Effect.tokenExchange, Effect.ghPost "/repos/r/issues"] ∧
    ¬("/main".data <:+ "refs/heads/maintenance".data) ∧
    ¬("/master".data <:+ "refs/heads/maintenance".data) := by decide

/-- C6 (amended): the push handler posts exactly one alert issue iff the ref
*contains* `/main` or `/master` (in particular every ref ending in them), a
truthy installation id is present, and at least 3 of the first 10 commits are
non-conventional and non-merge; with 2 or fewer no issue is posted, and on a
non-matching ref the handler performs no action at all. -/
theorem handle_push_spec (ref repo : String) (commits : List Commit)
    (instId : Option Nat) :
    ((handle_push ref repo commits instId).countP isPostEffect =
      if pushRefMatches ref = true ∧ instIdTruthy instId = true ∧
          3 ≤ (bad_commits commits).length then 1 else 0) ∧
    (pushRefMatches ref = false → handle_push ref repo commits instId = []) := by
  constructor
  · unfold handle_push
    cases hr : pushRefMatches ref
    · simp [hr]
    · cases hi : instIdTruthy instId
      · simp [hi]
      · cases hb : (bad_commits commits).isEmpty
        · by_cases h3 : 3 ≤ (bad_commits commits).length
          · simp [hr, hi, hb, h3, isPostEffect, List.countP_cons, List.countP_nil]
          · simp [hr, hi, hb, h3, isPostEffect, List.countP_cons, List.countP_nil]
        · have hlen : (bad_commits commits).length = 0 :=
            List.length_eq_zero.mpr (List.isEmpty_iff.mp hb)
          simp [hr, hi, hb, hlen]
  · intro h
    unfold handle_push
    simp [h]

/-- C6 witness: a push to a non-matching ref does nothing at all. -/
theorem handle_push_spec_witness :
    handle_push "refs/heads/dev" "r"
        [⟨"a1", "foo"⟩, ⟨"a2", "bar"⟩, ⟨"a3", "baz"⟩] (some 1) = [] :=
  (handle_push_spec "refs/heads/dev" "r"
      [⟨"a1", "foo"⟩, ⟨"a2", "bar"⟩, ⟨"a3", "baz"⟩] (some 1)).2 (by decide)

/-! ## Claim C7 — command extraction priority -/

/-- C7: command extraction scans the fixed priority list
`/fix, /explain, /improve, /test, /docs, /review` over the lower-cased comment
and the first match wins: any comment containing both `/fix` and `/explain`
(lower-cased) dispatches `/fix`. -/
theorem find_command_first_match (body : String)
    (hfix : hasSubstr "/fix".data (body.data.map Char.toLower) = true)
    (hexplain : hasSubstr "/explain".data (body.data.map Char.toLower) = true) :
    find_command body = some "/fix" := by
  unfold find_command COMMANDS
  rw [List.find?_cons_of_pos]
  exact hfix

/-- C7 witness: a comment containing both tokens dispatches `/fix`. -/
theorem find_command_first_match_witness :
    find_command "please /explain or /fix this" = some "/fix" :=
  find_command_first_match _ (by decide) (by decide)

/-! ## Claim C8 — no outbound call without a recognized command -/

/-- C8: an issue-comment "created" event whose body contains no recognized
command token produces no outbound call of any kind — no token exchange, no
repository read, no assistant call, no comment post. -/
theorem handle_issue_comment_noop (action author body repo : String) (n : Nat)
    (hact : action = "created")
    (hnone : ∀ cmd ∈ COMMANDS,
      hasSubstr cmd.data (body.data.map Char.toLower) = false) :
    handle_issue_comment action author body repo n = [] := by
  subst hact
  have hfind : find_command body = none := by
    unfold find_command
    apply List.find?_eq_none.mpr
    intro cmd hc
    simp [hnone cmd hc]
  unfold handle_issue_comment
  rw [hfind]
  split
  · rfl
  · split <;> rfl

/-- C8 witness: a plain comment triggers nothing. -/
theorem handle_issue_comment_noop_witness :
    handle_issue_comment "created" "alice" "thanks, looks good to me!" "r" 7 = [] :=
  handle_issue_comment_noop "created" "alice" "thanks, looks good to me!" "r" 7
    rfl (by decide)

/-! ## Claim C9 — falsy-score reviews are dropped; all-falsy posts nothing -/

/-- C9: every review kept by the code-review pass has a truthy `score`
(absent or falsy scores are excluded — and with them their issues, table rows
and score contributions, which are all derived from the kept list); and when
every reviewable file's result has a falsy score, the kept list is empty and
the handler posts neither the review comment nor the critical label. -/
theorem run_code_review_spec (repo : String) (prNumber : Nat)
    (files : List PRFile) (oracle : String → Json) :
    (∀ p ∈ collect_reviews files oracle,
      jTruthyAt p.2 "score" = true ∧ p.2 = oracle p.1) ∧
    ((∀ f ∈ reviewable_files files,
        jTruthyAt (oracle f.filename) "score" = false) →
      collect_reviews files oracle = [] ∧
      (run_code_review repo prNumber files oracle).countP isPostEffect = 0) := by
  constructor
  · intro p hp
    unfold collect_reviews at hp
    simp only [List.mem_filterMap] at hp
    obtain ⟨f, hf, heq⟩ := hp
    by_cases h : jTruthyAt (oracle f.filename) "score" = true
    · simp only [h, if_true] at heq
      injection heq with heq
      subst heq
      exact ⟨h, rfl⟩
    · rw [Bool.not_eq_true] at h
      simp [h] at heq
  · intro h
    have hc : collect_reviews files oracle = [] := by
      unfold collect_reviews
      apply List.filterMap_eq_nil_iff.mpr
      intro f hf
      simp [h f hf]
    refine ⟨hc, ?_⟩
    unfold run_code_review
    simp only [hc]
    cases he : (reviewable_files files).isEmpty
    · simp only [he, Bool.false_eq_true, if_false, List.isEmpty_nil, if_true,
        List.append_nil, List.countP_eq_zero]
      intro e he2
      simp only [List.mem_map] at he2
      obtain ⟨f, _, hf⟩ := he2
      subst hf
      simp [isPostEffect]
    · simp [he]

/-- C9 witness: one reviewable file whose review carries score 0 — nothing is
kept and nothing is posted. -/
theorem run_code_review_spec_witness :
    collect_reviews [⟨"a.py", "modified", 1, "p"⟩]
        (fun _ => Json.obj [("score", Json.num 0)]) = [] ∧
    (run_code_review "r" 1 [⟨"a.py", "modified", 1, "p"⟩]
        (fun _ => Json.obj [("score", Json.num 0)])).countP isPostEffect = 0 :=
  (run_code_review_spec "r" 1 [⟨"a.py", "modified", 1, "p"⟩]
      (fun _ => Json.obj [("score", Json.num 0)])).2 (by decide)

/-! ## Supporting lemmas for signature verification -/

/-- Sanity check against the FIPS 180-4 test vector: SHA-256 of `"abc"`. -/
theorem sha256_abc_vector :
    bytesToHexChars (sha256 [97, 98, 99]) =
      "ba7816bf8f01cfea414140de5dae2223b00361a396177a9cb410ff61f20015ad".data := by
  rfl

/-- Sanity check of HMAC-SHA256 against the classic test vector with key
`"key"` and message `"The quick brown fox jumps over the lazy dog"`. -/
theorem hmac_fox_vector :
    bytesToHexChars (hmacSha256 [107, 101, 121]
        ("The quick brown fox jumps over the lazy dog".data.map Char.toNat)) =
      "f7bc83f430538424b13298e6aa6fb143ef4d59a14946175997479dbc2d1a3cd8".data := by
  rfl

/-- Every hex digit character is ASCII. -/
theorem hexChar_lt128 (n : Nat) : (hexChar n).toNat < 128 := by
  unfold hexChar
  split <;> decide

/-- The hex digit map is injective below 16. -/
theorem hexChar_inj : ∀ a < 16, ∀ b < 16, hexChar a = hexChar b → a = b := by decide

/-- Hex encodings consist of ASCII characters only. -/
theorem bytesToHexChars_ascii (l : List Nat) :
    ∀ c ∈ bytesToHexChars l, c.toNat < 128 := by
  intro c hc
  unfold bytesToHexChars at hc
  simp only [List.mem_flatten, List.mem_map] at hc
  obtain ⟨cs, ⟨b, _, rfl⟩, hcs⟩ := hc
  simp only [List.mem_cons, List.not_mem_nil, or_false] at hcs
  rcases hcs with rfl | rfl <;> exact hexChar_lt128 _

/-- SHA-256 output entries are bytes. -/
theorem sha256_bytes_lt (msg : List Nat) : ∀ b ∈ sha256 msg, b < 256 := by
  intro b hb
  unfold sha256 at hb
  simp only [List.mem_flatten, List.mem_map] at hb
  obtain ⟨bs, ⟨w, _, rfl⟩, hbs⟩ := hb
  simp only [be32, List.mem_cons, List.not_mem_nil, or_false] at hbs
  rcases hbs with rfl | rfl | rfl | rfl <;> exact Nat.mod_lt _ (by norm_num)

/-- HMAC-SHA256 output entries are bytes. -/
theorem hmacSha256_bytes_lt (key msg : List Nat) :
    ∀ b ∈ hmacSha256 key msg, b < 256 := by
  intro b hb
  unfold hmacSha256 at hb
  exact sha256_bytes_lt _ b hb

/-- Hex encoding is injective on byte lists. -/
theorem bytesToHexChars_injOn : ∀ l1 l2 : List Nat, (∀ b ∈ l1, b < 256) →
    (∀ b ∈ l2, b < 256) → bytesToHexChars l1 = bytesToHexChars l2 → l1 = l2 := by
  intro l1
  induction l1 with
  | nil =>
    intro l2 _ _ h
    cases l2 with
    | nil => rfl
    | cons b bs => simp [bytesToHexChars] at h
  | cons b bs ih =>
    intro l2 h1 h2 h
    cases l2 with
    | nil => simp [bytesToHexChars] at h
    | cons b2 bs2 =>
      simp only [bytesToHexChars, List.map_cons, List.flatten_cons, List.cons_append,
        List.nil_append, List.cons.injEq] at h
      obtain ⟨ha, hbx, hrest⟩ := h
      have hb1 : b < 256 := h1 b (by simp)
      have hb2 : b2 < 256 := h2 b2 (by simp)
      have e1 : b / 16 = b2 / 16 := hexChar_inj _ (by omega) _ (by omega) ha
      have e2 : b % 16 = b2 % 16 := hexChar_inj _ (by omega) _ (by omega) hbx
      have hbb : b = b2 := by omega
      subst hbb
      have htail : bs = bs2 :=
        ih bs2 (fun x hx => h1 x (by simp [hx])) (fun x hx => h2 x (by simp [hx]))
          (by simpa [bytesToHexChars] using hrest)
      rw [htail]

/-- Two expected headers under the same secret agree exactly when the MACs of
the two bodies agree. -/
theorem sigChars_eq_iff (S B1 B2 : List Nat) :
    sigChars S B1 = sigChars S B2 ↔ hmacSha256 S B1 = hmacSha256 S B2 := by
  constructor
  · intro h
    unfold sigChars at h
    exact bytesToHexChars_injOn _ _ (hmacSha256_bytes_lt _ _)
      (hmacSha256_bytes_lt _ _) (List.append_cancel_left h)
  · intro h
    unfold sigChars
    rw [h]

/-- The expected header is ASCII-only. -/
theorem goodSig_ascii (S B : List Nat) : isAsciiStr (goodSig S B) = true := by
  show (sigChars S B).all _ = true
  unfold sigChars
  rw [List.all_append, Bool.and_eq_true]
  refine ⟨by decide, ?_⟩
  rw [List.all_eq_true]
  intro c hc
  simpa using bytesToHexChars_ascii _ c hc

/-! ## Claim C2 — webhook signature acceptance and rejection -/

/-- C2 counterexample: the claim says *any* single-bit mutation of the header
is rejected with a 401.  Flipping bit 7 of the header's first byte
(`'s' = 0x73` becomes `0xF3 = 'ó'`) makes the header non-ASCII, so CPython's
`hmac.compare_digest` raises `TypeError`; the exception escapes the route and
the response is a 500 server error, not a 401 — though still no handler runs. -/
theorem webhook_signature_cex :
    webhook_gate [107] [0]
        (some (String.mk ((sigChars [107] [0]).set 0 (Char.ofNat (Nat.xor 115 128)))))
        "push" =
      { status := 500, handlerInvoked := false, raised := true } := by decide

/-- C2 (amended): with a configured (non-empty) secret, a request whose header
is exactly `"sha256=" + hex(HMAC-SHA256(S, B))` passes verification and is
dispatched — provided the body also parses as JSON; with a valid signature but
a non-JSON body, `request.get_json(force=True)` raises `BadRequest` (400, no
handler).  Any *ASCII* header other than the expected one is rejected 401
with no handler invoked (in particular every single-bit mutation that keeps
the header ASCII); a non-ASCII header (e.g. a top-bit flip) raises `TypeError`
— a 500, still with no handler; and a mutated body under the original header
is rejected 401 whenever its MAC differs from the original body's MAC (the
claim's universal single-bit-of-`B` case is this statement plus the absence of
single-bit HMAC-SHA256 collisions, which is a property of the hash, not of
this code). -/
theorem webhook_signature_spec (S B : List Nat) (hS : S ≠ []) (ev : String) :
    (∀ payload, get_json_force B = some payload →
      webhook_gate S B (some (goodSig S B)) ev =
        { status := 200, handlerInvoked := HANDLED_EVENTS.contains ev,
          raised := false }) ∧
    (get_json_force B = none →
      webhook_gate S B (some (goodSig S B)) ev =
        { status := 400, handlerInvoked := false, raised := true }) ∧
    (∀ H : String, isAsciiStr H = true → H ≠ goodSig S B →
      webhook_gate S B (some H) ev =
        { status := 401, handlerInvoked := false, raised := false }) ∧
    (∀ H : String, isAsciiStr H = false →
      webhook_gate S B (some H) ev =
        { status := 500, handlerInvoked := false, raised := true }) ∧
    (∀ B2 : List Nat, hmacSha256 S B2 ≠ hmacSha256 S B →
      webhook_gate S B2 (some (goodSig S B)) ev =
        { status := 401, handlerInvoked := false, raised := false }) := by
  have hSe : S.isEmpty = false := by
    cases S with
    | nil => exact absurd rfl hS
    | cons a l => rfl
  have hverok : verify_signature S B (goodSig S B) = Except.ok true := by
    unfold verify_signature compare_digest
    simp [hSe, goodSig_ascii]
  refine ⟨fun payload hjson => ?_, fun hnone => ?_, fun H hascii hne => ?_,
    fun H hnascii => ?_, fun B2 hmne => ?_⟩
  · unfold webhook_gate
    simp [hSe, hverok, hjson]
  · unfold webhook_gate
    simp [hSe, hverok, hnone]
  · have hdata : ((goodSig S B).data == H.data) = false := by
      apply beq_eq_false_iff_ne.mpr
      intro hcontra
      obtain ⟨Hl⟩ := H
      exact hne (congrArg String.mk hcontra).symm
    have hver : verify_signature S B H = Except.ok false := by
      unfold verify_signature compare_digest
      simp [hSe, goodSig_ascii, hascii, hdata]
    unfold webhook_gate
    simp [hSe, hver]
  · have hver : verify_signature S B H = Except.error "TypeError" := by
      unfold verify_signature compare_digest
      simp [hSe, goodSig_ascii, hnascii]
    unfold webhook_gate
    simp [hSe, hver]
  · have hdata : ((goodSig S B2).data == (goodSig S B).data) = false := by
      apply beq_eq_false_iff_ne.mpr
      intro hcontra
      exact hmne ((sigChars_eq_iff S B2 B).mp hcontra)
    have hver : verify_signature S B2 (goodSig S B) = Except.ok false := by
      unfold verify_signature compare_digest
      simp [hSe, goodSig_ascii, hdata]
    unfold webhook_gate
    simp [hSe, hver]

/-- C2 witness: secret `b"k"`, body `b"{}"` — the correct header on the JSON
body is accepted and dispatched; the correct header on the non-JSON body
`b"\x00"` is a BadRequest 400 with no handler; a wrong ASCII header is a 401;
a non-ASCII header is the TypeError 500; the single-bit body mutation
`b"{|"` (last byte `0x7D` flipped to `0x7C`) under the original header is a
401 (its MAC differs, checked by evaluation). -/
theorem webhook_signature_spec_witness :
    webhook_gate [107] [123, 125] (some (goodSig [107] [123, 125])) "push" =
      { status := 200, handlerInvoked := true, raised := false } ∧
    webhook_gate [107] [0] (some (goodSig [107] [0])) "push" =
      { status := 400, handlerInvoked := false, raised := true } ∧
    webhook_gate [107] [123, 125] (some "sha256=deadbeef") "push" =
      { status := 401, handlerInvoked := false, raised := false } ∧
    webhook_gate [107] [123, 125] (some "sha256=ÿ") "push" =
      { status := 500, handlerInvoked := false, raised := true } ∧
    webhook_gate [107] [123, 124] (some (goodSig [107] [123, 125])) "push" =
      { status := 401, handlerInvoked := false, raised := false } := by
  refine ⟨?_, ?_, ?_, ?_, ?_⟩
  · exact (webhook_signature_spec [107] [123, 125] (by decide) "push").1
      (Json.obj []) (by rfl)
  · exact (webhook_signature_spec [107] [0] (by decide) "push").2.1 (by rfl)
  · exact (webhook_signature_spec [107] [123, 125] (by decide) "push").2.2.1
      "sha256=deadbeef" (by decide) (by decide)
  · exact (webhook_signature_spec [107] [123, 125] (by decide) "push").2.2.2.1
      "sha256=ÿ" (by decide)
  · exact (webhook_signature_spec [107] [123, 125] (by decide) "push").2.2.2.2
      [123, 124] (by decide)

/-! ## Claim C10 — totality of verification at the public interface -/

/-- C10 counterexample: the claim says no exception escapes signature
verification for any header value.  But for a header carrying a non-ASCII
character (here `"ÿ"`, a value a client can induce since header bytes are
decoded latin-1), `hmac.compare_digest` on two `str` arguments raises
`TypeError`, which escapes `verify_signature`. -/
theorem verify_signature_nonascii_cex :
    verify_signature [115] [] "ÿ" = Except.error "TypeError" := by rfl

/-- C10 (amended): with a configured secret, a request with a *missing*
signature header is treated as the empty string, compared without raising, and
rejected 401 with no handler invoked; and verification returns (never raises)
for every *ASCII* header value.  A non-ASCII header value, however, raises
`TypeError` (see the counterexample). -/
theorem verify_signature_total_spec (S B : List Nat) (hS : S ≠ []) (ev : String) :
    (webhook_gate S B none ev =
      { status := 401, handlerInvoked := false, raised := false }) ∧
    (∀ H : String, isAsciiStr H = true →
      ∃ b, verify_signature S B H = Except.ok b) := by
  have hSe : S.isEmpty = false := by
    cases S with
    | nil => exact absurd rfl hS
    | cons a l => rfl
  constructor
  · have hdata : ((goodSig S B).data == ("" : String).data) = false := by
      apply beq_eq_false_iff_ne.mpr
      intro hcontra
      have h2 : "sha256=".data ++ bytesToHexChars (hmacSha256 S B) = [] := hcontra
      rcases List.append_eq_nil.mp h2 with ⟨h3, _⟩
      exact absurd h3 (by decide)
    have hempty : isAsciiStr "" = true := by decide
    have hver : verify_signature S B "" = Except.ok false := by
      unfold verify_signature compare_digest
      simp [hSe, goodSig_ascii, hdata, hempty]
    unfold webhook_gate
    simp [hSe, hver]
  · intro H hascii
    refine ⟨(goodSig S B).data == H.data, ?_⟩
    unfold verify_signature compare_digest
    simp [hSe, goodSig_ascii, hascii]

/-- C10 witness: missing header rejected 401 without raising; an ASCII header
is compared without raising. -/
theorem verify_signature_total_spec_witness :
    webhook_gate [107] [] none "push" =
      { status := 401, handlerInvoked := false, raised := false } ∧
    ∃ b, verify_signature [107] [] "sha256=" = Except.ok b :=
  ⟨(verify_signature_total_spec [107] [] (by decide) "push").1,
   (verify_signature_total_spec [107] [] (by decide) "push").2 "sha256=" (by decide)⟩

end Autopilot
